import Mathlib

/-!
Shallow embedding of the ESP32 multi-camera relay server
(`src/ESP32_Server/ESP32_Server.ino`): the camera-client slot table,
memory guard, and the WebSocket message pump
(`addCameraClient`, `removeCameraClient`, `monitorMemory`,
`handleWebSocketMessage`, and the per-slot part of `loop`).

Machine integers are modelled as `Nat`/`Int`; bytes of a frame are `Nat`
values; `millis()` timestamps and heap sizes are additional inputs.
Sent broadcasts (`wsBrowser.textAll` / `wsBrowser.binaryAll`) are
collected into an ordered list of `Broadcast` values.
-/

namespace ESP32Relay

/-! ## System constants (source lines 27-29, 380-389, 454) -/

def CLIENT_TIMEOUT : Nat := 10000

def MAX_CLIENTS : Nat := 2

def MAX_FRAME_SIZE : Nat := 16384

def CHUNK_SIZE : Nat := 8192

/-- Low-memory watermark used in `monitorMemory` (`freeHeap < 10000`). -/
def LOW_WATERMARK : Nat := 10000

/-- `lowMemCount > 5` triggers the forced cleanup in `monitorMemory`. -/
def LOW_COUNT_THRESHOLD : Nat := 5

/-- Heap headroom demanded before admission and before processing a
message (`MAX_FRAME_SIZE + 1024` in `addCameraClient` and
`handleWebSocketMessage`). -/
def HEAP_HEADROOM : Nat := MAX_FRAME_SIZE + 1024

/-! ## JSON values

The inbound control channel carries JSON text which the source probes
with `String::indexOf` and rewrites with ArduinoJson
(`deserializeJson` / `doc["camera"] = id` / `serializeJson`).  We model
a parsed text message as a flat JSON object: an ordered list of
key/value members (ArduinoJson keeps member order, allows duplicate
keys, and `doc[key] = v` overwrites the first member with that key or
appends a new one at the end).  `serializeObj` produces the compact
serialization ArduinoJson emits. -/

inductive JsonVal : Type where
  | jnull : JsonVal
  | jbool : Bool → JsonVal
  | jint : Int → JsonVal
  | jstr : String → JsonVal
deriving DecidableEq, Repr

abbrev JsonObj : Type := List (String × JsonVal)

def serializeVal : JsonVal → String
  | JsonVal.jnull => "null"
  | JsonVal.jbool b => if b then "true" else "false"
  | JsonVal.jint n => toString n
  | JsonVal.jstr s => "\"" ++ s ++ "\""

def serializeMember (m : String × JsonVal) : String :=
  "\"" ++ m.1 ++ "\":" ++ serializeVal m.2

def serializeMembers : List (String × JsonVal) → String
  | [] => ""
  | [m] => serializeMember m
  | m :: m2 :: rest => serializeMember m ++ "," ++ serializeMembers (m2 :: rest)

def serializeObj (o : JsonObj) : String :=
  "\x7b" ++ serializeMembers o ++ "\x7d"

/-- `doc[k] = v`: overwrite the first member with key `k`, else append. -/
def setField (k : String) (v : JsonVal) : JsonObj → JsonObj
  | [] => [(k, v)]
  | (k2, v2) :: rest =>
      if k2 == k then (k2, v) :: rest else (k2, v2) :: setField k v rest

/-- First member with key `k` (ArduinoJson `doc[k]` lookup). -/
def getField : JsonObj → String → Option JsonVal
  | [], _ => none
  | (k2, v) :: rest, k => if k2 == k then some v else getField rest k

/-! ## Substring search (Arduino `String::indexOf(needle) >= 0`) -/

def listStartsWith : List Char → List Char → Bool
  | _, [] => true
  | [], _ :: _ => false
  | c :: cs, p :: ps => c == p && listStartsWith cs ps

def listHasSub : List Char → List Char → Bool
  | [], pat => listStartsWith [] pat
  | c :: rest, pat => listStartsWith (c :: rest) pat || listHasSub rest pat

def strContains (s pat : String) : Bool :=
  listHasSub s.data pat.data

/-- The literal probed for at source line 420. -/
def motionNeedle : String := "\"type\":\"motion\""

/-! ## Camera clients and server state (source lines 315-328) -/

/-- `CameraClient`: identity (`-1` when unset) and last-activity
timestamp; the owned WebSocket connection itself is not part of the
state, inbound traffic is an explicit input. -/
structure CameraClient : Type where
  cameraId : Int
  lastActivity : Nat
deriving DecidableEq, Repr

/-- The globals `camClients` (length `MAX_CLIENTS` in every reachable
state) and `activeClients`. -/
structure ServerState : Type where
  camClients : List (Option CameraClient)
  activeClients : Nat
deriving DecidableEq, Repr

def initState : ServerState :=
  { camClients := List.replicate MAX_CLIENTS none, activeClients := 0 }

def countOccupied (st : ServerState) : Nat :=
  st.camClients.countP (fun o => o.isSome)

/-- Everything the core pushes to browser subscribers
(`wsBrowser.textAll` / `wsBrowser.binaryAll`), in send order. -/
inductive Broadcast : Type where
  | text : String → Broadcast
  | binary : List Nat → Broadcast
deriving DecidableEq, Repr

/-- The status JSON built at source lines 363, 443 and 448. -/
def statusMsg (camera : Int) (connected : Bool) : String :=
  "\x7b\"type\":\"status\",\"camera\":" ++ toString camera ++
    ",\"status\":\"" ++ (if connected then "connected" else "disconnected") ++ "\"\x7d"

/-! ## addCameraClient (source lines 335-353) -/

/-- Index of the first empty slot, scanning like the `for` loop at
line 345. -/
def findEmptySlot : List (Option CameraClient) → Option Nat
  | [] => none
  | none :: _ => some 0
  | some _ :: rest => (findEmptySlot rest).map (· + 1)

/-- `addCameraClient`: capacity check, heap check, then fill the first
empty slot with identity `-1` and `lastActivity = millis()` (= `now`).
Returns the new state and the `bool` result. -/
def addCameraClient (st : ServerState) (freeHeap now : Nat) : ServerState × Bool :=
  if st.activeClients ≥ MAX_CLIENTS then (st, false)
  else if freeHeap < HEAP_HEADROOM then (st, false)
  else
    match findEmptySlot st.camClients with
    | some i =>
        ({ camClients := st.camClients.set i (some ⟨-1, now⟩),
           activeClients := st.activeClients + 1 }, true)
    | none => (st, false)

/-! ## removeCameraClient (source lines 359-369) -/

/-- `removeCameraClient`: on an occupied in-range slot it broadcasts a
"disconnected" status for whatever `cameraId` the slot holds
(unconditionally, `-1` included), clears the slot and decrements
`activeClients`; otherwise it does nothing.  The decrement never
underflows in reachable states (`activeClients` counts occupied
slots). -/
def removeCameraClient (st : ServerState) (index : Nat) : ServerState × List Broadcast :=
  if index < MAX_CLIENTS then
    match st.camClients.getD index none with
    | some c =>
        ({ camClients := st.camClients.set index none,
           activeClients := st.activeClients - 1 },
         [Broadcast.text (statusMsg c.cameraId false)])
    | none => (st, [])
  else (st, [])

/-! ## monitorMemory (source lines 375-402) -/

/-- The two `static` locals of `monitorMemory`. -/
structure MemGuardState : Type where
  lastCheck : Nat
  lowMemCount : Nat
deriving DecidableEq, Repr

/-- One memory sample: the update of `lowMemCount` and whether the
forced cleanup fires (`lowMemCount > 5` after the increment, which also
resets the counter to 0). -/
def guardSample (lowMemCount : Nat) (low : Bool) : Nat × Bool :=
  if low then
    if lowMemCount + 1 > LOW_COUNT_THRESHOLD then (0, true)
    else (lowMemCount + 1, false)
  else (0, false)

/-- The cleanup loop at lines 390-395: every occupied slot is reset and
`activeClients` decremented — with no broadcast of any kind. -/
def resetLoop : List (Option CameraClient) → Nat → List (Option CameraClient) × Nat
  | [], act => ([], act)
  | some _ :: rest, act =>
      let r := resetLoop rest (act - 1)
      (none :: r.1, r.2)
  | none :: rest, act =>
      let r := resetLoop rest act
      (none :: r.1, r.2)

/-- The forced full reset: the body of `if (lowMemCount > 5)`. -/
def forceResetSlots (st : ServerState) : ServerState × List Broadcast :=
  let r := resetLoop st.camClients st.activeClients
  ({ camClients := r.1, activeClients := r.2 }, [])

/-- `monitorMemory`, given the current time and free-heap reading.
Returns the new guard state, the new server state and the broadcasts
emitted (none: the cleanup loop never notifies subscribers). -/
def monitorMemory (g : MemGuardState) (st : ServerState) (now freeHeap : Nat) :
    MemGuardState × ServerState × List Broadcast :=
  if now - g.lastCheck > 1000 then
    let s := guardSample g.lowMemCount (freeHeap < LOW_WATERMARK)
    if s.2 then
      let r := forceResetSlots st
      (⟨now, s.1⟩, r.1, r.2)
    else (⟨now, s.1⟩, st, [])
  else (g, st, [])

/-! ## Frame chunking (source lines 454-459) -/

/-- Fuel-indexed worker for the chunking loop; each pass consumes at
least one byte, so `fuel = l.length` always suffices. -/
def chunksGo : Nat → List Nat → List (List Nat)
  | _, [] => []
  | 0, _ :: _ => []
  | fuel + 1, x :: xs =>
      if (x :: xs).length ≤ CHUNK_SIZE then [x :: xs]
      else (x :: xs).take CHUNK_SIZE :: chunksGo fuel ((x :: xs).drop CHUNK_SIZE)

/-- The chunking loop: `for (offset = 0; offset < length; offset += CHUNK_SIZE)`
sending `min(CHUNK_SIZE, length - offset)` bytes each pass.  An empty
frame produces no chunks. -/
def chunks (l : List Nat) : List (List Nat) :=
  chunksGo l.length l

/-! ## handleWebSocketMessage (source lines 410-464) -/

/-- One inbound WebSocket message: text (already JSON-parsed into the
object model), binary (the frame bytes), or any other frame kind
(ping/pong/close), which falls through every branch. -/
inductive WsMessage : Type where
  | text : JsonObj → WsMessage
  | binary : List Nat → WsMessage
  | other : WsMessage
deriving DecidableEq, Repr

structure HandleResult : Type where
  ok : Bool
  client : CameraClient
  broadcasts : List Broadcast
deriving DecidableEq, Repr

/-- The text branch (lines 419-428): if the raw text contains
`"type":"motion"`, re-tag the parsed document's `camera` member with
the slot's own id and broadcast the re-serialized text; either way the
message counts as processed. -/
def handleTextMsg (cameraId : Int) (o : JsonObj) : List Broadcast :=
  if strContains (serializeObj o) motionNeedle then
    [Broadcast.text (serializeObj (setField "camera" (JsonVal.jint cameraId) o))]
  else []

/-- The identity-tag branch (lines 439-452): with at least 13 bytes,
byte 12 in `{0x01, 0x02}` and different from the current id, broadcast
"disconnected" for the old id (whatever it is, `-1` included), assign
the new id, broadcast "connected" for it. -/
def handleIdentityTag (c : CameraClient) (b : List Nat) : CameraClient × List String :=
  if 12 < b.length then
    if b.getD 12 0 = 1 ∨ b.getD 12 0 = 2 then
      if c.cameraId ≠ (b.getD 12 0 : Int) then
        ({ c with cameraId := (b.getD 12 0 : Int) },
         [statusMsg c.cameraId false, statusMsg (b.getD 12 0 : Int) true])
      else (c, [])
    else (c, [])
  else (c, [])

/-- `handleWebSocketMessage` for one slot.  `msg = none` models
`!client.available()`.  The heap check precedes the read.  A binary
frame longer than `MAX_FRAME_SIZE` is dropped with `false`.  (The inner
`msgLen <= StaticFrameBuffer::SIZE` test of the source is always true
once `msgLen > MAX_FRAME_SIZE` was ruled out, since
`StaticFrameBuffer::SIZE = MAX_FRAME_SIZE`.)  The accepted frame is
copied into the shared buffer, the identity tag processed, and the
buffer forwarded in `CHUNK_SIZE` pieces. -/
def handleWebSocketMessage (freeHeap : Nat) (c : CameraClient) (msg : Option WsMessage) :
    HandleResult :=
  match msg with
  | none => ⟨false, c, []⟩
  | some m =>
      if freeHeap < HEAP_HEADROOM then ⟨false, c, []⟩
      else
        match m with
        | WsMessage.text o => ⟨true, c, handleTextMsg c.cameraId o⟩
        | WsMessage.binary b =>
            if b.length > MAX_FRAME_SIZE then ⟨false, c, []⟩
            else
              let tagged := handleIdentityTag c b
              ⟨true, tagged.1,
                tagged.2.map Broadcast.text ++ (chunks b).map Broadcast.binary⟩
        | WsMessage.other => ⟨false, c, []⟩

/-- The per-slot body of `loop` (lines 527-537): on success stamp
`lastActivity = currentTime`; otherwise evict the slot (with the
disconnect broadcast of `removeCameraClient`) when the inactivity
window has elapsed. -/
def loopSlotStep (now freeHeap : Nat) (msg : Option WsMessage) (c : CameraClient) :
    Option CameraClient × List Broadcast :=
  let r := handleWebSocketMessage freeHeap c msg
  if r.ok then (some { r.client with lastActivity := now }, r.broadcasts)
  else if now - r.client.lastActivity > CLIENT_TIMEOUT then
    (none, r.broadcasts ++ [Broadcast.text (statusMsg r.client.cameraId false)])
  else (some r.client, r.broadcasts)

/-! ## Slot-table operation sequences (for the capacity invariant) -/

inductive SlotOp : Type where
  | addClient : Nat → Nat → SlotOp
  | evict : Nat → SlotOp
  | forceReset : SlotOp
deriving DecidableEq, Repr

def applySlotOp (st : ServerState) : SlotOp → ServerState
  | SlotOp.addClient freeHeap now => (addCameraClient st freeHeap now).1
  | SlotOp.evict i => (removeCameraClient st i).1
  | SlotOp.forceReset => (forceResetSlots st).1

def runOps (ops : List SlotOp) : ServerState :=
  ops.foldl applySlotOp initState

/-! ## Observation helpers -/

def textOf : Broadcast → Option String
  | Broadcast.text s => some s
  | Broadcast.binary _ => none

def binOf : Broadcast → Option (List Nat)
  | Broadcast.text _ => none
  | Broadcast.binary b => some b

def textBroadcasts (r : HandleResult) : List String :=
  r.broadcasts.filterMap textOf

def binaryBroadcasts (r : HandleResult) : List (List Nat) :=
  r.broadcasts.filterMap binOf

/-- The recognized motion-event shape of the spec:
`{type:"motion", detected: bool}` — a JSON object (unique keys) whose
`type` member is the string `"motion"` and whose `detected` member is a
boolean. -/
def motionShape (o : JsonObj) : Prop :=
  getField o "type" = some (JsonVal.jstr "motion") ∧
    (∃ b : Bool, getField o "detected" = some (JsonVal.jbool b)) ∧
    (o.map Prod.fst).Nodup

/-- The reachable-state invariant: the slot list keeps its fixed length
and `activeClients` equals the number of occupied slots. -/
def SlotInv (st : ServerState) : Prop :=
  st.camClients.length = MAX_CLIENTS ∧ st.activeClients = countOccupied st

/-- The fire flags of a run of memory samples through `guardSample`,
starting from counter value `cnt` (`true` at position `i` when the
forced cleanup fires on sample `i`). -/
def guardRun (cnt : Nat) : List Bool → List Bool
  | [] => []
  | low :: rest =>
      (guardSample cnt low).2 :: guardRun (guardSample cnt low).1 rest

/-- Whether the forced cleanup fires on the `i`-th sample of the run
(counter initially 0, as `lowMemCount` starts at 0). -/
def firesAt (samples : List Bool) (i : Nat) : Bool :=
  (guardRun 0 samples).getD i false

/-! ## Helper lemmas: substring search -/

theorem listStartsWith_nil (l : List Char) : listStartsWith l [] = true := by
  cases l <;> rfl

theorem listStartsWith_append (pat rest : List Char) :
    listStartsWith (pat ++ rest) pat = true := by
  induction pat with
  | nil => exact listStartsWith_nil rest
  | cons c cs ih => simp [listStartsWith, ih]

theorem listHasSub_startsWith (l pat : List Char) (h : listStartsWith l pat = true) :
    listHasSub l pat = true := by
  cases l with
  | nil => simpa [listHasSub] using h
  | cons c rest => simp [listHasSub, h]

theorem listHasSub_append (a pat b : List Char) :
    listHasSub (a ++ pat ++ b) pat = true := by
  induction a with
  | nil =>
      rw [List.nil_append]
      exact listHasSub_startsWith _ _ (listStartsWith_append pat b)
  | cons c cs ih =>
      rw [List.cons_append, List.cons_append, listHasSub, ih]
      simp

theorem strContains_of_data_split (s pat : String) (a b : List Char)
    (h : s.data = a ++ pat.data ++ b) : strContains s pat = true := by
  unfold strContains
  rw [h]
  exact listHasSub_append a pat.data b

/-! ## Helper lemmas: serialization and member update -/

theorem serializeMembers_data_split (l : List (String × JsonVal))
    (hmem : ("type", JsonVal.jstr "motion") ∈ l) :
    ∃ a b : List Char, (serializeMembers l).data = a ++ motionNeedle.data ++ b := by
  induction l with
  | nil => simp at hmem
  | cons m rest ih =>
      rcases List.mem_cons.mp hmem with hm | hm
      · cases rest with
        | nil =>
            refine ⟨[], [], ?_⟩
            rw [← hm]
            decide
        | cons m2 rest2 =>
            refine ⟨[], (("," : String) ++ serializeMembers (m2 :: rest2)).data, ?_⟩
            rw [← hm]
            have hmemb : (serializeMember ("type", JsonVal.jstr "motion")).data
                = motionNeedle.data := by decide
            simp [serializeMembers, String.data_append, hmemb]
      · cases rest with
        | nil => simp at hm
        | cons m2 rest2 =>
            obtain ⟨a, b, hab⟩ := ih hm
            refine ⟨(serializeMember m ++ ",").data ++ a, b, ?_⟩
            simp [serializeMembers, String.data_append, hab]

theorem strContains_serializeObj (o : JsonObj)
    (hmem : ("type", JsonVal.jstr "motion") ∈ o) :
    strContains (serializeObj o) motionNeedle = true := by
  obtain ⟨a, b, hab⟩ := serializeMembers_data_split o hmem
  refine strContains_of_data_split _ _ ("\x7b".data ++ a) (b ++ "\x7d".data) ?_
  show (("\x7b" ++ serializeMembers o) ++ "\x7d").data = _
  simp [String.data_append, hab]

theorem getField_setField_self (l : JsonObj) (k : String) (v : JsonVal) :
    getField (setField k v l) k = some v := by
  induction l with
  | nil => simp [setField, getField]
  | cons m rest ih =>
      obtain ⟨k2, v2⟩ := m
      by_cases h : k2 == k
      · simp [setField, getField, h]
      · simp only [setField, getField, h, if_false, Bool.false_eq_true, if_neg]
        exact ih

theorem setField_setField (l : JsonObj) (k : String) (v w : JsonVal) :
    setField k v (setField k w l) = setField k v l := by
  induction l with
  | nil => simp [setField]
  | cons m rest ih =>
      obtain ⟨k2, v2⟩ := m
      by_cases h : k2 == k
      · simp [setField, h]
      · simp [setField, h, ih]

theorem mem_setField_of_ne {l : JsonObj} {k2 : String} {v2 : JsonVal} (k : String) (v : JsonVal)
    (hne : k2 ≠ k) (hm : (k2, v2) ∈ l) : (k2, v2) ∈ setField k v l := by
  induction l with
  | nil => simp at hm
  | cons m rest ih =>
      obtain ⟨k3, v3⟩ := m
      rcases List.mem_cons.mp hm with hm2 | hm2
      · have hk : k3 = k2 := by
          have := congrArg Prod.fst hm2
          exact this.symm
        have hv : v3 = v2 := by
          have := congrArg Prod.snd hm2
          exact this.symm
        subst hk
        subst hv
        have hbe : (k3 == k) = false := beq_eq_false_iff_ne.mpr hne
        simp [setField, hbe]
      · by_cases h : k3 == k
        · simp [setField, h]
          right
          exact hm2
        · simp [setField, h]
          right
          exact ih hm2

theorem getField_mem {l : JsonObj} {k : String} {v : JsonVal}
    (h : getField l k = some v) : (k, v) ∈ l := by
  induction l with
  | nil => simp [getField] at h
  | cons m rest ih =>
      obtain ⟨k2, v2⟩ := m
      by_cases hk : k2 == k
      · rw [getField, if_pos hk] at h
        have hv : v2 = v := by injection h
        have hke : k2 = k := eq_of_beq hk
        subst hv
        subst hke
        exact List.mem_cons_self _ _
      · rw [getField, if_neg hk] at h
        exact List.mem_cons_of_mem _ (ih h)

/-! ## Helper lemmas: broadcast observation -/

theorem filterMap_textOf_map_text (ts : List String) :
    (ts.map Broadcast.text).filterMap textOf = ts := by
  induction ts with
  | nil => rfl
  | cons t rest ih => simp [textOf, ih]

theorem filterMap_textOf_map_binary (bs : List (List Nat)) :
    (bs.map Broadcast.binary).filterMap textOf = [] := by
  induction bs with
  | nil => rfl
  | cons b rest ih => simp [textOf, ih]

theorem filterMap_binOf_map_text (ts : List String) :
    (ts.map Broadcast.text).filterMap binOf = [] := by
  induction ts with
  | nil => rfl
  | cons t rest ih => simp [binOf, ih]

theorem filterMap_binOf_map_binary (bs : List (List Nat)) :
    (bs.map Broadcast.binary).filterMap binOf = bs := by
  induction bs with
  | nil => rfl
  | cons b rest ih => simp [binOf, ih]

/-! ## Helper lemmas: chunking -/

theorem chunksGo_flatten (fuel : Nat) :
    ∀ l : List Nat, l.length ≤ fuel → (chunksGo fuel l).flatten = l := by
  induction fuel with
  | zero =>
      intro l h
      have : l = [] := List.eq_nil_of_length_eq_zero (by omega)
      subst this
      rfl
  | succ f ih =>
      intro l h
      cases l with
      | nil => rfl
      | cons x xs =>
          rw [chunksGo]
          by_cases hc : (x :: xs).length ≤ CHUNK_SIZE
          · rw [if_pos hc]
            simp
          · rw [if_neg hc]
            have hdrop : ((x :: xs).drop CHUNK_SIZE).length ≤ f := by
              simp only [List.length_drop]
              have : 0 < CHUNK_SIZE := by decide
              omega
            simp only [List.flatten_cons, ih _ hdrop]
            exact List.take_append_drop _ _

theorem chunks_flatten (l : List Nat) : (chunks l).flatten = l :=
  chunksGo_flatten l.length l le_rfl

theorem chunksGo_getD (fuel : Nat) :
    ∀ (l : List Nat) (i : Nat), l.length ≤ fuel →
      (chunksGo fuel l).getD i [] = (l.drop (i * CHUNK_SIZE)).take CHUNK_SIZE := by
  induction fuel with
  | zero =>
      intro l i h
      have : l = [] := List.eq_nil_of_length_eq_zero (by omega)
      subst this
      simp [chunksGo]
  | succ f ih =>
      intro l i h
      cases l with
      | nil => simp [chunksGo]
      | cons x xs =>
          rw [chunksGo]
          by_cases hc : (x :: xs).length ≤ CHUNK_SIZE
          · rw [if_pos hc]
            cases i with
            | zero => simp [List.take_of_length_le hc]
            | succ j =>
                have hdrop : (x :: xs).length ≤ (j + 1) * CHUNK_SIZE := by
                  have : 0 < CHUNK_SIZE := by decide
                  calc (x :: xs).length ≤ CHUNK_SIZE := hc
                    _ ≤ (j + 1) * CHUNK_SIZE := Nat.le_mul_of_pos_left _ (Nat.succ_pos j)
                simp [List.drop_of_length_le hdrop]
          · rw [if_neg hc]
            cases i with
            | zero => simp
            | succ j =>
                have hdrop : ((x :: xs).drop CHUNK_SIZE).length ≤ f := by
                  simp only [List.length_drop]
                  have : 0 < CHUNK_SIZE := by decide
                  omega
                have hdd : ((x :: xs).drop CHUNK_SIZE).drop (j * CHUNK_SIZE)
                    = (x :: xs).drop ((j + 1) * CHUNK_SIZE) := by
                  rw [List.drop_drop]
                  have : CHUNK_SIZE + j * CHUNK_SIZE = (j + 1) * CHUNK_SIZE := by ring
                  rw [this]
                simp only [List.getD_cons_succ, ih _ j hdrop, hdd]

theorem chunks_getD (l : List Nat) (i : Nat) :
    (chunks l).getD i [] = (l.drop (i * CHUNK_SIZE)).take CHUNK_SIZE :=
  chunksGo_getD l.length l i le_rfl

theorem chunksGo_length (fuel : Nat) :
    ∀ l : List Nat, l.length ≤ fuel →
      (chunksGo fuel l).length = (l.length + CHUNK_SIZE - 1) / CHUNK_SIZE := by
  induction fuel with
  | zero =>
      intro l h
      have : l = [] := List.eq_nil_of_length_eq_zero (by omega)
      subst this
      decide
  | succ f ih =>
      intro l h
      cases l with
      | nil =>
          simp only [chunksGo, List.length_nil]
          decide
      | cons x xs =>
          rw [chunksGo]
          by_cases hc : (x :: xs).length ≤ CHUNK_SIZE
          · rw [if_pos hc]
            show 1 = _
            have hpos : 0 < (x :: xs).length := by simp
            unfold CHUNK_SIZE at hc ⊢
            omega
          · rw [if_neg hc]
            have hdrop : ((x :: xs).drop CHUNK_SIZE).length ≤ f := by
              simp only [List.length_drop]
              have : 0 < CHUNK_SIZE := by decide
              omega
            simp only [List.length_cons, ih _ hdrop, List.length_drop]
            unfold CHUNK_SIZE at hc ⊢
            omega

theorem chunks_length (l : List Nat) :
    (chunks l).length = (l.length + CHUNK_SIZE - 1) / CHUNK_SIZE :=
  chunksGo_length l.length l le_rfl

/-! ## Helper lemmas: slot counting and the occupancy invariant -/

theorem findEmptySlot_spec (l : List (Option CameraClient)) (i : Nat)
    (h : findEmptySlot l = some i) : l.get? i = some none := by
  induction l generalizing i with
  | nil => simp [findEmptySlot] at h
  | cons o rest ih =>
      cases o with
      | none =>
          have : i = 0 := by simpa [findEmptySlot] using h.symm
          subst this
          rfl
      | some c =>
          rw [findEmptySlot] at h
          cases hr : findEmptySlot rest with
          | none => rw [hr] at h; simp at h
          | some j =>
              rw [hr] at h
              have hij : i = j + 1 := by simpa using h.symm
              subst hij
              simpa using ih j hr

theorem countP_set_some (l : List (Option CameraClient)) (i : Nat) (c : CameraClient)
    (h : l.get? i = some none) :
    (l.set i (some c)).countP (fun o => o.isSome) = l.countP (fun o => o.isSome) + 1 := by
  induction l generalizing i with
  | nil => simp at h
  | cons o rest ih =>
      cases i with
      | zero =>
          have : o = none := by simpa using h
          subst this
          simp [List.countP_cons]
      | succ j =>
          have hj : rest.get? j = some none := by simpa using h
          simp only [List.set_cons_succ, List.countP_cons, ih j hj]
          omega

theorem countP_set_none (l : List (Option CameraClient)) (i : Nat) (c : CameraClient)
    (h : l.get? i = some (some c)) :
    l.countP (fun o => o.isSome) = (l.set i none).countP (fun o => o.isSome) + 1 := by
  induction l generalizing i with
  | nil => simp at h
  | cons o rest ih =>
      cases i with
      | zero =>
          have : o = some c := by simpa using h
          subst this
          simp [List.countP_cons]
      | succ j =>
          have hj : rest.get? j = some (some c) := by simpa using h
          simp only [List.set_cons_succ, List.countP_cons]
          rw [ih j hj]
          omega

theorem getD_eq_get?_some (l : List (Option CameraClient)) (i : Nat) (c : CameraClient)
    (h : l.getD i none = some c) : l.get? i = some (some c) := by
  cases hg : l.get? i with
  | none =>
      rw [List.getD_eq_getD_get?, hg] at h
      simp at h
  | some x =>
      rw [List.getD_eq_getD_get?, hg] at h
      simp only [Option.getD_some] at h
      exact congrArg some h

theorem resetLoop_spec (l : List (Option CameraClient)) (act : Nat) :
    resetLoop l act = (l.map (fun _ => none), act - l.countP (fun o => o.isSome)) := by
  induction l generalizing act with
  | nil => simp [resetLoop]
  | cons o rest ih =>
      cases o with
      | none => simp [resetLoop, ih, List.countP_cons]
      | some c =>
          simp only [resetLoop, ih, List.map_cons, List.countP_cons]
          refine Prod.ext rfl ?_
          simp
          omega

theorem slotInv_init : SlotInv initState := by
  constructor <;> decide

theorem slotInv_add (st : ServerState) (freeHeap now : Nat) (h : SlotInv st) :
    SlotInv (addCameraClient st freeHeap now).1 := by
  obtain ⟨hlen, hact⟩ := h
  unfold addCameraClient
  split
  · exact ⟨hlen, hact⟩
  · split
    · exact ⟨hlen, hact⟩
    · cases hf : findEmptySlot st.camClients with
      | none => exact ⟨hlen, hact⟩
      | some i =>
          have hget := findEmptySlot_spec _ _ hf
          refine ⟨by simpa using hlen, ?_⟩
          show st.activeClients + 1 = _
          unfold countOccupied at hact ⊢
          simp only
          rw [countP_set_some _ _ _ hget, hact]

theorem slotInv_remove (st : ServerState) (i : Nat) (h : SlotInv st) :
    SlotInv (removeCameraClient st i).1 := by
  obtain ⟨hlen, hact⟩ := h
  unfold removeCameraClient
  split
  · cases hg : st.camClients.getD i none with
    | none => exact ⟨hlen, hact⟩
    | some c =>
        have hget := getD_eq_get?_some _ _ _ hg
        refine ⟨by simpa using hlen, ?_⟩
        show st.activeClients - 1 = _
        unfold countOccupied at hact ⊢
        simp only
        have := countP_set_none _ _ _ hget
        omega
  · exact ⟨hlen, hact⟩

theorem slotInv_forceReset (st : ServerState) (h : SlotInv st) :
    SlotInv (forceResetSlots st).1 := by
  obtain ⟨hlen, hact⟩ := h
  unfold forceResetSlots
  rw [resetLoop_spec]
  refine ⟨by simpa using hlen, ?_⟩
  show st.activeClients - _ = _
  unfold countOccupied at hact ⊢
  simp only
  have hz : (st.camClients.map (fun _ => (none : Option CameraClient))).countP
      (fun o => o.isSome) = 0 := by
    rw [List.countP_eq_zero]
    intro a ha
    rw [List.mem_map] at ha
    obtain ⟨x, hx, hax⟩ := ha
    rw [← hax]
    simp
  rw [hz]
  omega

theorem slotInv_runOps (ops : List SlotOp) : SlotInv (runOps ops) := by
  suffices h : ∀ st : ServerState, SlotInv st → SlotInv (ops.foldl applySlotOp st) by
    exact h initState slotInv_init
  induction ops with
  | nil => intro st h; exact h
  | cons op rest ih =>
      intro st h
      refine ih _ ?_
      cases op with
      | addClient fh now => exact slotInv_add st fh now h
      | evict i => exact slotInv_remove st i h
      | forceReset => exact slotInv_forceReset st h

/-! ## Helper lemmas: the memory-guard counter -/

theorem guardSample_not_low (cnt : Nat) : guardSample cnt false = (0, false) := by
  simp [guardSample]

theorem guardRun_fire_window (samples : List Bool) :
    ∀ cnt i : Nat, cnt ≤ LOW_COUNT_THRESHOLD →
      (guardRun cnt samples).getD i false = true →
      LOW_COUNT_THRESHOLD ≤ cnt + i ∧
        ∀ j, j ≤ i → i ≤ j + LOW_COUNT_THRESHOLD → samples.getD j false = true := by
  induction samples with
  | nil =>
      intro cnt i hc hf
      simp [guardRun] at hf
  | cons a rest ih =>
      intro cnt i hc hf
      rw [guardRun] at hf
      cases a with
      | false =>
          rw [guardSample_not_low] at hf
          cases i with
          | zero => simp at hf
          | succ i2 =>
              simp only [List.getD_cons_succ] at hf
              obtain ⟨h5, hw⟩ := ih 0 i2 (by omega) hf
              refine ⟨by omega, ?_⟩
              intro j hj hwin
              cases j with
              | zero => exfalso; omega
              | succ j2 =>
                  simp only [List.getD_cons_succ]
                  exact hw j2 (by omega) (by omega)
      | true =>
          by_cases hfire : cnt + 1 > LOW_COUNT_THRESHOLD
          · have hs : guardSample cnt true = (0, true) := by
              simp [guardSample, hfire]
            rw [hs] at hf
            cases i with
            | zero =>
                refine ⟨by omega, ?_⟩
                intro j hj hwin
                have : j = 0 := by omega
                subst this
                rfl
            | succ i2 =>
                simp only [List.getD_cons_succ] at hf
                obtain ⟨h5, hw⟩ := ih 0 i2 (by omega) hf
                refine ⟨by omega, ?_⟩
                intro j hj hwin
                cases j with
                | zero => rfl
                | succ j2 =>
                    simp only [List.getD_cons_succ]
                    exact hw j2 (by omega) (by omega)
          · have hs : guardSample cnt true = (cnt + 1, false) := by
              simp [guardSample, hfire]
            rw [hs] at hf
            cases i with
            | zero => simp at hf
            | succ i2 =>
                simp only [List.getD_cons_succ] at hf
                obtain ⟨h5, hw⟩ := ih (cnt + 1) i2 (by omega) hf
                refine ⟨by omega, ?_⟩
                intro j hj hwin
                cases j with
                | zero => rfl
                | succ j2 =>
                    simp only [List.getD_cons_succ]
                    exact hw j2 (by omega) (by omega)

theorem guardRun_head_no_fire (l : List Bool) : (guardRun 0 l).getD 0 false = false := by
  cases l with
  | nil => rfl
  | cons a rest =>
      cases a with
      | false => rfl
      | true =>
          rw [guardRun]
          have h1 : guardSample 0 true = (1, false) := by decide
          rw [h1]
          rfl

theorem guardSample_fire_resets (cnt : Nat) (low : Bool)
    (h : (guardSample cnt low).2 = true) : (guardSample cnt low).1 = 0 := by
  cases low with
  | false => simp [guardSample] at h
  | true =>
      by_cases hfire : cnt + 1 > LOW_COUNT_THRESHOLD
      · simp [guardSample, hfire]
      · simp [guardSample, hfire] at h

theorem guardRun_no_refire (samples : List Bool) :
    ∀ cnt i : Nat, (guardRun cnt samples).getD i false = true →
      (guardRun cnt samples).getD (i + 1) false = false := by
  induction samples with
  | nil =>
      intro cnt i hf
      simp [guardRun] at hf
  | cons a rest ih =>
      intro cnt i hf
      rw [guardRun] at hf ⊢
      cases i with
      | zero =>
          have hs1 : (guardSample cnt a).2 = true := by simpa using hf
          have hs0 : (guardSample cnt a).1 = 0 := guardSample_fire_resets cnt a hs1
          simp only [List.getD_cons_succ, hs0]
          exact guardRun_head_no_fire rest
      | succ i2 =>
          simp only [List.getD_cons_succ] at hf ⊢
          exact ih _ i2 hf

/-! ## Helper lemmas: unfolding handleWebSocketMessage -/

theorem handle_none (fh : Nat) (c : CameraClient) :
    handleWebSocketMessage fh c none = ⟨false, c, []⟩ := rfl

theorem handle_some_low (fh : Nat) (c : CameraClient) (m : WsMessage)
    (h : fh < HEAP_HEADROOM) :
    handleWebSocketMessage fh c (some m) = ⟨false, c, []⟩ := by
  cases m <;> simp [handleWebSocketMessage, h]

theorem handle_text_eq (fh : Nat) (c : CameraClient) (o : JsonObj)
    (hfh : HEAP_HEADROOM ≤ fh) :
    handleWebSocketMessage fh c (some (WsMessage.text o)) =
      ⟨true, c, handleTextMsg c.cameraId o⟩ := by
  show (if fh < HEAP_HEADROOM then (⟨false, c, []⟩ : HandleResult)
      else ⟨true, c, handleTextMsg c.cameraId o⟩) = _
  rw [if_neg (by omega)]

theorem handle_binary_accepted (fh : Nat) (c : CameraClient) (b : List Nat)
    (hfh : HEAP_HEADROOM ≤ fh) (hlen : b.length ≤ MAX_FRAME_SIZE) :
    handleWebSocketMessage fh c (some (WsMessage.binary b)) =
      ⟨true, (handleIdentityTag c b).1,
        (handleIdentityTag c b).2.map Broadcast.text ++ (chunks b).map Broadcast.binary⟩ := by
  show (if fh < HEAP_HEADROOM then (⟨false, c, []⟩ : HandleResult)
      else if b.length > MAX_FRAME_SIZE then ⟨false, c, []⟩
      else ⟨true, (handleIdentityTag c b).1,
        (handleIdentityTag c b).2.map Broadcast.text ++ (chunks b).map Broadcast.binary⟩) = _
  rw [if_neg (by omega), if_neg (by omega)]

theorem handle_binary_oversized (fh : Nat) (c : CameraClient) (b : List Nat)
    (hlen : MAX_FRAME_SIZE < b.length) :
    handleWebSocketMessage fh c (some (WsMessage.binary b)) = ⟨false, c, []⟩ := by
  by_cases h : fh < HEAP_HEADROOM
  · exact handle_some_low fh c _ h
  · show (if fh < HEAP_HEADROOM then (⟨false, c, []⟩ : HandleResult)
        else if b.length > MAX_FRAME_SIZE then ⟨false, c, []⟩
        else ⟨true, (handleIdentityTag c b).1,
          (handleIdentityTag c b).2.map Broadcast.text ++ (chunks b).map Broadcast.binary⟩) = _
    rw [if_neg h, if_pos (by omega)]

theorem handleIdentityTag_eq (c : CameraClient) (b : List Nat) :
    handleIdentityTag c b =
      if 12 < b.length ∧ (b.getD 12 0 = 1 ∨ b.getD 12 0 = 2) ∧
          c.cameraId ≠ (b.getD 12 0 : Int) then
        ({ c with cameraId := (b.getD 12 0 : Int) },
         [statusMsg c.cameraId false, statusMsg (b.getD 12 0 : Int) true])
      else (c, []) := by
  unfold handleIdentityTag
  by_cases h1 : 12 < b.length
  · rw [if_pos h1]
    by_cases h2 : b.getD 12 0 = 1 ∨ b.getD 12 0 = 2
    · rw [if_pos h2]
      by_cases h3 : c.cameraId ≠ (b.getD 12 0 : Int)
      · rw [if_pos h3, if_pos ⟨h1, h2, h3⟩]
      · rw [if_neg h3, if_neg (by tauto)]
    · rw [if_neg h2, if_neg (by tauto)]
  · rw [if_neg h1, if_neg (by tauto)]

theorem get?_set_of_get? (l : List (Option CameraClient)) (i : Nat)
    (x y : Option CameraClient) (h : l.get? i = some y) :
    (l.set i x).get? i = some x := by
  induction l generalizing i with
  | nil => simp at h
  | cons o rest ih =>
      cases i with
      | zero => rfl
      | succ j =>
          have hj : rest.get? j = some y := by simpa using h
          simpa using ih j hj

/-! ## Claim C1 -/

/-- C1 as stated is false: processing a valid tagged frame on a slot
with no previously assigned identity still emits a "disconnected"
status event (carrying the sentinel -1) before the "connected" event,
rather than only the "connected" event.  Concrete input: a fresh slot
(identity -1) receiving a 13-byte frame with byte 12 = 0x01. -/
theorem claim_C1_counterexample :
    (⟨-1, 0⟩ : CameraClient).cameraId = -1 ∧
    textBroadcasts (handleWebSocketMessage 20000 ⟨-1, 0⟩
        (some (WsMessage.binary (List.replicate 12 0 ++ [1])))) =
      [statusMsg (-1) false, statusMsg 1 true] ∧
    textBroadcasts (handleWebSocketMessage 20000 ⟨-1, 0⟩
        (some (WsMessage.binary (List.replicate 12 0 ++ [1])))) ≠
      [statusMsg 1 true] := by
  refine ⟨rfl, by decide, by decide⟩

/-- C1 (amended): for every slot and binary frame of length at least 13
whose byte 12 is in {0x01, 0x02} and differs from the slot's current
identity, processing emits exactly one "disconnected" status event
carrying the old identity — emitted unconditionally, i.e. also when no
identity was previously assigned, in which case it carries the sentinel
-1 — followed by exactly one "connected" event carrying the new
identity, in that order; and such status events are emitted only under
these conditions. -/
theorem claim_C1 (fh : Nat) (c : CameraClient) (b : List Nat)
    (hfh : HEAP_HEADROOM ≤ fh) (hlen : b.length ≤ MAX_FRAME_SIZE) :
    textBroadcasts (handleWebSocketMessage fh c (some (WsMessage.binary b))) =
      if 12 < b.length ∧ (b.getD 12 0 = 1 ∨ b.getD 12 0 = 2) ∧
          c.cameraId ≠ (b.getD 12 0 : Int) then
        [statusMsg c.cameraId false, statusMsg (b.getD 12 0 : Int) true]
      else [] := by
  rw [handle_binary_accepted fh c b hfh hlen]
  unfold textBroadcasts
  simp only [List.filterMap_append, filterMap_textOf_map_text,
    filterMap_textOf_map_binary, List.append_nil]
  rw [handleIdentityTag_eq]
  by_cases h : 12 < b.length ∧ (b.getD 12 0 = 1 ∨ b.getD 12 0 = 2) ∧
      c.cameraId ≠ (b.getD 12 0 : Int)
  · rw [if_pos h, if_pos h]
  · rw [if_neg h, if_neg h]

theorem claim_C1_witness :
    textBroadcasts (handleWebSocketMessage 20000 ⟨1, 0⟩
        (some (WsMessage.binary (List.replicate 12 0 ++ [2])))) =
      [statusMsg 1 false, statusMsg 2 true] := by
  have h := claim_C1 20000 ⟨1, 0⟩ (List.replicate 12 0 ++ [2]) (by decide) (by decide)
  rw [h]
  decide

/-! ## Claim C2 -/

/-- C2: for every slot and every inbound text message matching the
motion-event shape, the broadcast event's camera field equals the
slot's own identity, and any two motion messages that differ only in
the value of their embedded camera member produce identical output (a
producer cannot spoof another producer's identity). -/
theorem claim_C2 (fh : Nat) (c : CameraClient) (o : JsonObj)
    (hfh : HEAP_HEADROOM ≤ fh) (hshape : motionShape o) :
    handleWebSocketMessage fh c (some (WsMessage.text o)) =
      ⟨true, c, [Broadcast.text
        (serializeObj (setField "camera" (JsonVal.jint c.cameraId) o))]⟩ ∧
    getField (setField "camera" (JsonVal.jint c.cameraId) o) "camera"
      = some (JsonVal.jint c.cameraId) ∧
    ∀ v w : JsonVal,
      handleWebSocketMessage fh c (some (WsMessage.text (setField "camera" v o))) =
        handleWebSocketMessage fh c (some (WsMessage.text (setField "camera" w o))) := by
  obtain ⟨htype, hdet, hnodup⟩ := hshape
  have hmem : ("type", JsonVal.jstr "motion") ∈ o := getField_mem htype
  have hcont := strContains_serializeObj o hmem
  refine ⟨?_, getField_setField_self o "camera" (JsonVal.jint c.cameraId), ?_⟩
  · rw [handle_text_eq fh c o hfh]
    unfold handleTextMsg
    rw [if_pos hcont]
  · intro v w
    have hne : ("type" : String) ≠ "camera" := by decide
    have hmv := mem_setField_of_ne "camera" v hne hmem
    have hmw := mem_setField_of_ne "camera" w hne hmem
    rw [handle_text_eq fh c _ hfh, handle_text_eq fh c _ hfh]
    unfold handleTextMsg
    rw [if_pos (strContains_serializeObj _ hmv),
      if_pos (strContains_serializeObj _ hmw),
      setField_setField, setField_setField]

theorem claim_C2_witness :
    motionShape [("type", JsonVal.jstr "motion"), ("detected", JsonVal.jbool true),
      ("camera", JsonVal.jint 1)] ∧
    handleWebSocketMessage 20000 ⟨2, 0⟩ (some (WsMessage.text
        [("type", JsonVal.jstr "motion"), ("detected", JsonVal.jbool true),
          ("camera", JsonVal.jint 1)])) =
      ⟨true, ⟨2, 0⟩, [Broadcast.text
        "\x7b\"type\":\"motion\",\"detected\":true,\"camera\":2\x7d"]⟩ := by
  have hshape : motionShape [("type", JsonVal.jstr "motion"),
      ("detected", JsonVal.jbool true), ("camera", JsonVal.jint 1)] :=
    ⟨rfl, ⟨true, rfl⟩, by decide⟩
  refine ⟨hshape, ?_⟩
  have h := (claim_C2 20000 ⟨2, 0⟩ _ (by decide) hshape).1
  rw [h]
  decide

/-! ## Claim C3 -/

/-- C3: over every sequence of admission, eviction and forced-reset
operations, occupancy never exceeds MAX_CLIENTS = 2; admission while
all slots are occupied fails and leaves the state unchanged; a
successful admission fills the first empty slot with identity unset
(-1) and a fresh activity timestamp. -/
theorem claim_C3 (ops : List SlotOp) :
    countOccupied (runOps ops) ≤ MAX_CLIENTS ∧
    (∀ fh now, countOccupied (runOps ops) = MAX_CLIENTS →
      addCameraClient (runOps ops) fh now = (runOps ops, false)) ∧
    (∀ fh now st2, addCameraClient (runOps ops) fh now = (st2, true) →
      ∃ i, findEmptySlot (runOps ops).camClients = some i ∧
        st2 = { camClients := (runOps ops).camClients.set i (some ⟨-1, now⟩),
                activeClients := (runOps ops).activeClients + 1 }) := by
  obtain ⟨hlen, hact⟩ := slotInv_runOps ops
  refine ⟨?_, ?_, ?_⟩
  · unfold countOccupied
    exact le_trans (List.countP_le_length _) (le_of_eq hlen)
  · intro fh now hfull
    have hge : (runOps ops).activeClients ≥ MAX_CLIENTS := by
      rw [hact, hfull]
    unfold addCameraClient
    rw [if_pos hge]
  · intro fh now st2 hadd
    unfold addCameraClient at hadd
    by_cases h1 : (runOps ops).activeClients ≥ MAX_CLIENTS
    · rw [if_pos h1] at hadd
      simp at hadd
    · rw [if_neg h1] at hadd
      by_cases h2 : fh < HEAP_HEADROOM
      · rw [if_pos h2] at hadd
        simp at hadd
      · rw [if_neg h2] at hadd
        cases hfind : findEmptySlot (runOps ops).camClients with
        | none =>
            rw [hfind] at hadd
            simp at hadd
        | some i =>
            rw [hfind] at hadd
            refine ⟨i, rfl, ?_⟩
            injection hadd with hst hb
            exact hst.symm

theorem claim_C3_witness :
    countOccupied (runOps [SlotOp.addClient 20000 0, SlotOp.addClient 20000 1,
      SlotOp.addClient 20000 2]) ≤ MAX_CLIENTS ∧
    addCameraClient (runOps [SlotOp.addClient 20000 0, SlotOp.addClient 20000 1]) 20000 5 =
      (runOps [SlotOp.addClient 20000 0, SlotOp.addClient 20000 1], false) := by
  refine ⟨(claim_C3 _).1, ?_⟩
  exact (claim_C3 [SlotOp.addClient 20000 0, SlotOp.addClient 20000 1]).2.1 20000 5 (by decide)

/-! ## Claim C4 -/

/-- C4: over every sequence of memory samples, the forced full reset
fires only after more than LOW_COUNT_THRESHOLD = 5 consecutive
below-watermark samples (the firing sample and the 5 before it are all
low); a single non-low sample resets the consecutive-low counter to 0;
and after firing once the counter is reset, so the reset does not fire
again on the immediately following sample (edge-triggered). -/
theorem claim_C4 (samples : List Bool) :
    (∀ i, firesAt samples i = true →
      LOW_COUNT_THRESHOLD ≤ i ∧
        ∀ j, j ≤ i → i ≤ j + LOW_COUNT_THRESHOLD → samples.getD j false = true) ∧
    (∀ cnt, guardSample cnt false = (0, false)) ∧
    (∀ i, firesAt samples i = true → firesAt samples (i + 1) = false) := by
  refine ⟨?_, guardSample_not_low, ?_⟩
  · intro i hf
    have h := guardRun_fire_window samples 0 i (by omega) hf
    exact ⟨by omega, h.2⟩
  · intro i hf
    exact guardRun_no_refire samples 0 i hf

theorem claim_C4_witness :
    (LOW_COUNT_THRESHOLD ≤ 5 ∧
      ∀ j, j ≤ 5 → 5 ≤ j + LOW_COUNT_THRESHOLD →
        [true, true, true, true, true, true].getD j false = true) ∧
    guardSample 3 false = (0, false) ∧
    firesAt [true, true, true, true, true, true, true] 6 = false := by
  refine ⟨(claim_C4 _).1 5 (by decide), (claim_C4 []).2.1 3, ?_⟩
  exact (claim_C4 [true, true, true, true, true, true, true]).2.2 5 (by decide)

/-! ## Claim C5 -/

/-- C5 as stated is false: the memory guard's forced reset evicts an
occupied slot (here slot 0, identity 1) and emits no disconnect
notification at all, while the claim requires one from every eviction
path. -/
theorem claim_C5_counterexample :
    (ServerState.mk [some ⟨1, 0⟩, none] 1).camClients.getD 0 none = some ⟨1, 0⟩ ∧
    monitorMemory ⟨0, 5⟩ (ServerState.mk [some ⟨1, 0⟩, none] 1) 2000 5000 =
      (⟨2000, 0⟩, ⟨[none, none], 0⟩, []) := by
  exact ⟨rfl, by decide⟩

/-- C5 (amended): eviction through `removeCameraClient` (the
inactivity-timeout path) always emits a disconnect notification for an
occupied slot, but the memory guard's forced reset clears all slots
without emitting any notification. -/
theorem claim_C5 (st : ServerState) (i : Nat) (c : CameraClient)
    (hi : i < MAX_CLIENTS) (hocc : st.camClients.getD i none = some c) :
    (removeCameraClient st i).2 = [Broadcast.text (statusMsg c.cameraId false)] ∧
    ∀ st2 : ServerState, (forceResetSlots st2).2 = [] := by
  constructor
  · unfold removeCameraClient
    rw [if_pos hi, hocc]
  · intro st2
    rfl

theorem claim_C5_witness :
    (removeCameraClient ⟨[some ⟨2, 0⟩, none], 1⟩ 0).2 =
      [Broadcast.text (statusMsg 2 false)] ∧
    (forceResetSlots ⟨[some ⟨2, 0⟩, none], 1⟩).2 = [] := by
  have h := claim_C5 ⟨[some ⟨2, 0⟩, none], 1⟩ 0 ⟨2, 0⟩ (by decide) rfl
  exact ⟨h.1, h.2 _⟩

/-! ## Claim C6 -/

/-- C6: a binary frame longer than MAX_FRAME_SIZE = 16384 is dropped:
the handler rejects it with no broadcast and no client change (so no
part is forwarded and `lastActivity` is not refreshed), and the loop
iteration behaves exactly as if no message had arrived — in particular
the frame itself causes no eviction. -/
theorem claim_C6 (fh now : Nat) (c : CameraClient) (b : List Nat)
    (hlen : MAX_FRAME_SIZE < b.length) :
    handleWebSocketMessage fh c (some (WsMessage.binary b)) = ⟨false, c, []⟩ ∧
    loopSlotStep now fh (some (WsMessage.binary b)) c = loopSlotStep now fh none c := by
  have hh := handle_binary_oversized fh c b hlen
  refine ⟨hh, ?_⟩
  unfold loopSlotStep
  rw [hh, handle_none]

theorem claim_C6_witness :
    handleWebSocketMessage 20000 ⟨1, 0⟩
        (some (WsMessage.binary (List.replicate 16385 0))) = ⟨false, ⟨1, 0⟩, []⟩ ∧
    loopSlotStep 0 20000 (some (WsMessage.binary (List.replicate 16385 0))) ⟨1, 0⟩ =
      loopSlotStep 0 20000 none ⟨1, 0⟩ := by
  refine claim_C6 20000 0 ⟨1, 0⟩ (List.replicate 16385 0) ?_
  rw [List.length_replicate]
  decide

/-! ## Claim C7 -/

/-- C7: every accepted binary frame of length L (0 < L ≤ MAX_FRAME_SIZE)
is forwarded as exactly ceil(L / CHUNK_SIZE) binary chunks in order of
increasing offset (the i-th chunk is the CHUNK_SIZE-byte slice at
offset i * CHUNK_SIZE, the final one possibly shorter), and the
concatenation of the chunks is byte-identical to the frame. -/
theorem claim_C7 (fh : Nat) (c : CameraClient) (b : List Nat)
    (hfh : HEAP_HEADROOM ≤ fh) (_hpos : 0 < b.length)
    (hlen : b.length ≤ MAX_FRAME_SIZE) :
    binaryBroadcasts (handleWebSocketMessage fh c (some (WsMessage.binary b))) =
      chunks b ∧
    (chunks b).length = (b.length + CHUNK_SIZE - 1) / CHUNK_SIZE ∧
    (∀ i, (chunks b).getD i [] = (b.drop (i * CHUNK_SIZE)).take CHUNK_SIZE) ∧
    (chunks b).flatten = b := by
  refine ⟨?_, chunks_length b, chunks_getD b, chunks_flatten b⟩
  rw [handle_binary_accepted fh c b hfh hlen]
  unfold binaryBroadcasts
  simp only [List.filterMap_append, filterMap_binOf_map_text,
    filterMap_binOf_map_binary, List.nil_append]

theorem claim_C7_witness :
    binaryBroadcasts (handleWebSocketMessage 20000 ⟨1, 0⟩
        (some (WsMessage.binary [5, 6, 7]))) = chunks [5, 6, 7] ∧
    (chunks [5, 6, 7]).length = 1 ∧
    (chunks [5, 6, 7]).flatten = [5, 6, 7] := by
  have h := claim_C7 20000 ⟨1, 0⟩ [5, 6, 7] (by decide) (by decide) (by decide)
  refine ⟨h.1, ?_, h.2.2.2⟩
  rw [h.2.1]
  decide

/-! ## Claim C8 -/

/-- C8 as stated is false: evicting an occupied slot whose identity was
never assigned (cameraId = -1) still emits a disconnect notification —
carrying camera -1 — while the claim requires none in that case. -/
theorem claim_C8_counterexample :
    (ServerState.mk [some ⟨-1, 0⟩, none] 1).camClients.getD 0 none = some ⟨-1, 0⟩ ∧
    (removeCameraClient ⟨[some ⟨-1, 0⟩, none], 1⟩ 0).2 =
      [Broadcast.text (statusMsg (-1) false)] ∧
    (removeCameraClient ⟨[some ⟨-1, 0⟩, none], 1⟩ 0).2 ≠ [] := by
  refine ⟨rfl, rfl, by decide⟩

/-- C8 (amended): evicting an occupied slot always emits exactly one
disconnect notification carrying the slot's current identity — the
sentinel -1 included when no identity was ever assigned; evicting an
already-empty or out-of-range slot leaves the state unchanged and emits
nothing. -/
theorem claim_C8 (st : ServerState) (i : Nat) :
    (∀ c : CameraClient, i < MAX_CLIENTS → st.camClients.getD i none = some c →
      removeCameraClient st i =
        ({ camClients := st.camClients.set i none,
           activeClients := st.activeClients - 1 },
         [Broadcast.text (statusMsg c.cameraId false)])) ∧
    (i < MAX_CLIENTS → st.camClients.getD i none = none →
      removeCameraClient st i = (st, [])) ∧
    (MAX_CLIENTS ≤ i → removeCameraClient st i = (st, [])) := by
  refine ⟨?_, ?_, ?_⟩
  · intro c hi hocc
    unfold removeCameraClient
    rw [if_pos hi, hocc]
  · intro hi hemp
    unfold removeCameraClient
    rw [if_pos hi, hemp]
  · intro hi
    unfold removeCameraClient
    rw [if_neg (by omega)]

theorem claim_C8_witness :
    removeCameraClient ⟨[some ⟨-1, 3⟩, none], 1⟩ 0 =
      ({ camClients := [none, none], activeClients := 0 },
       [Broadcast.text (statusMsg (-1) false)]) ∧
    removeCameraClient ⟨[some ⟨-1, 3⟩, none], 1⟩ 1 = (⟨[some ⟨-1, 3⟩, none], 1⟩, []) ∧
    removeCameraClient ⟨[some ⟨-1, 3⟩, none], 1⟩ 7 = (⟨[some ⟨-1, 3⟩, none], 1⟩, []) := by
  refine ⟨(claim_C8 ⟨[some ⟨-1, 3⟩, none], 1⟩ 0).1 ⟨-1, 3⟩ (by decide) rfl,
    (claim_C8 ⟨[some ⟨-1, 3⟩, none], 1⟩ 1).2.1 (by decide) rfl,
    (claim_C8 ⟨[some ⟨-1, 3⟩, none], 1⟩ 7).2.2 (by decide)⟩

/-! ## Claim C9 -/

/-- C9 as stated is false: the text message whose serialization is
`\x7b"type":"motion"\x7d` does not match the motion-event shape (it has
no "detected" member), yet the handler forwards it to subscribers
(with the camera member appended), while the claim requires that
nothing be forwarded. -/
theorem claim_C9_counterexample :
    getField [("type", JsonVal.jstr "motion")] "detected" = none ∧
    (handleWebSocketMessage 20000 ⟨-1, 0⟩
        (some (WsMessage.text [("type", JsonVal.jstr "motion")]))).broadcasts =
      [Broadcast.text "\x7b\"type\":\"motion\",\"camera\":-1\x7d"] ∧
    (handleWebSocketMessage 20000 ⟨-1, 0⟩
        (some (WsMessage.text [("type", JsonVal.jstr "motion")]))).broadcasts ≠ [] := by
  refine ⟨rfl, by decide, by decide⟩

/-- C9 (amended): every inbound text message is accepted — the handler
reports success, the loop refreshes the slot's activity timestamp and
does not evict — and the message is forwarded (with its camera member
overwritten) exactly when its serialized text contains the substring
`"type":"motion"`; the full member shape is never checked. -/
theorem claim_C9 (fh now : Nat) (c : CameraClient) (o : JsonObj)
    (hfh : HEAP_HEADROOM ≤ fh) :
    handleWebSocketMessage fh c (some (WsMessage.text o)) =
      ⟨true, c,
        if strContains (serializeObj o) motionNeedle then
          [Broadcast.text (serializeObj (setField "camera" (JsonVal.jint c.cameraId) o))]
        else []⟩ ∧
    loopSlotStep now fh (some (WsMessage.text o)) c =
      (some ⟨c.cameraId, now⟩,
        if strContains (serializeObj o) motionNeedle then
          [Broadcast.text (serializeObj (setField "camera" (JsonVal.jint c.cameraId) o))]
        else []) := by
  have h1 := handle_text_eq fh c o hfh
  constructor
  · rw [h1]
    rfl
  · unfold loopSlotStep
    rw [h1]
    rfl

theorem claim_C9_witness :
    handleWebSocketMessage 20000 ⟨1, 0⟩
        (some (WsMessage.text [("hello", JsonVal.jint 3)])) = ⟨true, ⟨1, 0⟩, []⟩ ∧
    loopSlotStep 99 20000 (some (WsMessage.text [("hello", JsonVal.jint 3)])) ⟨1, 0⟩ =
      (some ⟨1, 99⟩, []) := by
  have h := claim_C9 20000 99 ⟨1, 0⟩ [("hello", JsonVal.jint 3)] (by decide)
  constructor
  · rw [h.1]
    decide
  · rw [h.2]
    decide

/-! ## Claim C10 -/

/-- C10: a successfully admitted slot starts with the sentinel identity
-1, and a motion-shaped text message received on such a slot is still
forwarded to all subscribers carrying camera = -1, a value outside the
documented identity set {1, 2}. -/
theorem claim_C10 (st : ServerState) (fh now : Nat) (st2 : ServerState)
    (hadd : addCameraClient st fh now = (st2, true)) :
    (∃ i, findEmptySlot st.camClients = some i ∧
      st2.camClients.get? i = some (some ⟨-1, now⟩)) ∧
    ∀ (fh2 : Nat) (o : JsonObj), HEAP_HEADROOM ≤ fh2 → motionShape o →
      (handleWebSocketMessage fh2 ⟨-1, now⟩ (some (WsMessage.text o))).broadcasts =
        [Broadcast.text (serializeObj (setField "camera" (JsonVal.jint (-1)) o))] ∧
      getField (setField "camera" (JsonVal.jint (-1)) o) "camera"
        = some (JsonVal.jint (-1)) ∧
      ((-1 : Int) ≠ 1 ∧ (-1 : Int) ≠ 2) := by
  constructor
  · unfold addCameraClient at hadd
    by_cases h1 : st.activeClients ≥ MAX_CLIENTS
    · rw [if_pos h1] at hadd
      simp at hadd
    · rw [if_neg h1] at hadd
      by_cases h2 : fh < HEAP_HEADROOM
      · rw [if_pos h2] at hadd
        simp at hadd
      · rw [if_neg h2] at hadd
        cases hfind : findEmptySlot st.camClients with
        | none =>
            rw [hfind] at hadd
            simp at hadd
        | some i =>
            rw [hfind] at hadd
            injection hadd with hst hb
            refine ⟨i, rfl, ?_⟩
            rw [← hst]
            exact get?_set_of_get? _ _ _ _ (findEmptySlot_spec _ _ hfind)
  · intro fh2 o hfh2 hshape
    obtain ⟨htype, hdet, hnodup⟩ := hshape
    have hmem : ("type", JsonVal.jstr "motion") ∈ o := getField_mem htype
    have hcont := strContains_serializeObj o hmem
    refine ⟨?_, getField_setField_self o "camera" (JsonVal.jint (-1)), by decide, by decide⟩
    rw [handle_text_eq fh2 ⟨-1, now⟩ o hfh2]
    show handleTextMsg (-1) o = _
    unfold handleTextMsg
    rw [if_pos hcont]

theorem claim_C10_witness :
    (∃ i, findEmptySlot initState.camClients = some i ∧
      (ServerState.mk [some ⟨-1, 7⟩, none] 1).camClients.get? i = some (some ⟨-1, 7⟩)) ∧
    (handleWebSocketMessage 20000 ⟨-1, 7⟩ (some (WsMessage.text
        [("type", JsonVal.jstr "motion"), ("detected", JsonVal.jbool false)]))).broadcasts =
      [Broadcast.text (serializeObj (setField "camera" (JsonVal.jint (-1))
        [("type", JsonVal.jstr "motion"), ("detected", JsonVal.jbool false)]))] := by
  have h := claim_C10 initState 20000 7 ⟨[some ⟨-1, 7⟩, none], 1⟩ (by decide)
  refine ⟨h.1, ?_⟩
  exact (h.2 20000 [("type", JsonVal.jstr "motion"), ("detected", JsonVal.jbool false)]
    (by decide) ⟨rfl, ⟨false, rfl⟩, by decide⟩).1

end ESP32Relay

